import Mathlib

/-
  Verification development for the jjui-vscode extension
  (src/src/extension.ts, with the related variant src/unnamed/part_000).

  The extension is a thin toggle controller for a terminal window running
  the external jjui tool.  The embedding below models:
    - the configuration record (PanelBehavior, PanelOptions, JJUIConfig);
    - the host view queried on each command (active text editor, active
      terminal, open tab groups);
    - the UI side effects issued to the host as an explicit effect list
      (UIEffect), with delayed commands carrying their delay in ms;
    - the controller operations toggleJJUI, createWindow, focusWindow,
      closeWindow, onShown, onHide, windowFocused;
    - the utility functions expandPath and getWorkspaceFolder;
    - the terminal-close observers registered by createWindow.

  Terminal handles are modelled as natural numbers; an absent handle is
  Option.none.  Fallible operations (the assert calls in the source) are
  modelled with Except: Except.error models the thrown assertion.
-/

namespace JJUI

/-- The three panel behaviors of the configuration, from the source type
PanelBehavior = "keep" | "hide" | "hideRestore". -/
inductive PanelBehavior
  | keep
  | hide
  | hideRestore
deriving DecidableEq, Repr

/-- PanelOptions from the source: one behavior per UI element. -/
structure PanelOptions where
  sidebar : PanelBehavior
  panel : PanelBehavior
  secondarySidebar : PanelBehavior
deriving DecidableEq, Repr

/-- JJUIConfig from the source. -/
structure JJUIConfig where
  jjuiPath : String
  autoMaximizeWindow : Bool
  panels : PanelOptions
deriving DecidableEq, Repr

/-- The host state the controller queries: vscode.window.activeTextEditor
(only its presence matters to the controller), vscode.window.activeTerminal
(a terminal handle), and vscode.window.tabGroups.all (each group is a list
of tabs; tab identity does not matter, only the count). -/
structure HostView where
  activeTextEditor : Option Unit
  activeTerminal : Option Nat
  tabGroups : List (List Unit)
deriving Repr

/-- openTabs in closeWindow: vscode.window.tabGroups.all.flatMap(g =>
g.tabs).length. -/
def openTabs (h : HostView) : Nat :=
  (h.tabGroups.flatten).length

/-- The UI side effects the controller can issue to the host.  cmd is
vscode.commands.executeCommand; delayedCmd is an executeCommand scheduled
by setTimeout with the given delay in milliseconds; delayedRefocus is the
delayed show-and-focus retry block in createWindow; the remaining
constructors are the terminal operations. -/
inductive UIEffect
  | cmd (name : String)
  | delayedCmd (ms : Nat) (name : String)
  | createTerminal (cwd : String)
  | sendText (text : String)
  | showTerminal
  | disposeTerminal
  | delayedRefocus (ms : Nat)
  | registerCloseObserver
deriving DecidableEq, Repr

/-- shouldKeep from onShown. -/
def shouldKeep (b : PanelBehavior) : Bool :=
  b = PanelBehavior.keep

/-- shouldHide from onShown. -/
def shouldHide (b : PanelBehavior) : Bool :=
  b = PanelBehavior.hide || b = PanelBehavior.hideRestore

/-- shouldRestore from onHide. -/
def shouldRestore (b : PanelBehavior) : Bool :=
  b = PanelBehavior.hideRestore

/-- onShown from the source, as the list of command names issued, in
order. -/
def onShown (cfg : JJUIConfig) : List String :=
  (if cfg.autoMaximizeWindow then
    ["workbench.action.maximizeEditorHideSidebar"]
      ++ (if shouldKeep cfg.panels.sidebar then
            ["workbench.action.toggleSidebarVisibility"]
          else [])
  else
    (if shouldHide cfg.panels.sidebar then
      ["workbench.action.closeSidebar"]
    else [])
      ++ (if shouldHide cfg.panels.secondarySidebar then
            ["workbench.action.closeAuxiliaryBar"]
          else []))
    ++ (if shouldHide cfg.panels.panel then
          ["workbench.action.closePanel"]
        else [])

/-- onHide from the source, as the list of effects issued, in order.  The
sidebar restore line is commented out in the source and therefore absent
here.  The final focusActiveEditorGroup command is issued through
setTimeout with a 200 ms delay. -/
def onHide (cfg : JJUIConfig) : List UIEffect :=
  (if shouldRestore cfg.panels.secondarySidebar then
    [UIEffect.cmd "workbench.action.toggleAuxiliaryBar"]
  else [])
    ++ (if shouldRestore cfg.panels.panel then
          [UIEffect.cmd "workbench.action.togglePanel"]
        else [])
    ++ (if cfg.autoMaximizeWindow then
          [UIEffect.cmd "workbench.action.evenEditorWidths"]
        else [])
    ++ [UIEffect.delayedCmd 200 "workbench.action.focusActiveEditorGroup"]

/-- windowFocused from the source: activeTextEditor is undefined and
activeTerminal is (reference-)equal to the stored jjui terminal handle. -/
def windowFocused (h : HostView) (jjuiTerminal : Option Nat) : Bool :=
  h.activeTextEditor.isNone && h.activeTerminal == jjuiTerminal

/-- focusWindow from the source: assert(jjuiTerminal) then
jjuiTerminal.show(false).  The failed assert is modelled as Except.error
carrying the assertion message. -/
def focusWindow (jjuiTerminal : Option Nat) : Except String (List UIEffect) :=
  match jjuiTerminal with
  | none => Except.error "Terminal undefined!"
  | some _ => Except.ok [UIEffect.showTerminal]

/-- closeWindow from the source, as the effects it issues: dispose the
terminal when exactly one tab is open (and a terminal handle exists),
otherwise ask the host to reopen the previously used editor in the
group.  closeWindow never writes the session handle itself. -/
def closeWindowEffects (openTabCount : Nat) (jjuiTerminal : Option Nat) :
    List UIEffect :=
  if openTabCount == 1 && jjuiTerminal.isSome then
    [UIEffect.disposeTerminal]
  else
    [UIEffect.cmd "workbench.action.openPreviousRecentlyUsedEditorInGroup"]

/-- The platform-dependent exit suffix appended to the jjui command line
in createWindow of src/src/extension.ts. -/
def exitSuffix (isWin : Bool) : String :=
  if isWin then "; exit" else " && exit"

/-- createWindow from src/src/extension.ts (the variant that asserts the
resolved path and sends the command line with sendText).  The assert on an
empty jjuiPath (empty string is falsy in the source) is modelled as
Except.error; on success it returns the fresh terminal handle and the
effects issued in order: create the terminal bound to the working
directory, send the command line, show it, schedule the 100 ms refocus
retry, and register the terminal-close observer. -/
def createWindow (cfg : JJUIConfig) (isWin : Bool) (cwd : String)
    (fresh : Nat) : Except String (Nat × List UIEffect) :=
  if cfg.jjuiPath = "" then
    Except.error "jjui path is undefined!"
  else
    Except.ok (fresh,
      [UIEffect.createTerminal cwd,
       UIEffect.sendText (cfg.jjuiPath ++ exitSuffix isWin),
       UIEffect.showTerminal,
       UIEffect.delayedRefocus 100,
       UIEffect.registerCloseObserver])

/-- toggleJJUI from the source, for a fixed configuration snapshot and
host view: returns the session handle after the synchronous part of the
invocation, together with the effects issued.  A thrown assertion
(Except.error from createWindow or focusWindow) aborts the invocation
before the corresponding onShown call, leaving the handle unchanged. -/
def toggleJJUI (cfg : JJUIConfig) (h : HostView) (isWin : Bool)
    (cwd : String) (jjuiTerminal : Option Nat) (fresh : Nat) :
    Option Nat × List UIEffect :=
  match jjuiTerminal with
  | some _ =>
    if windowFocused h jjuiTerminal then
      (jjuiTerminal, closeWindowEffects (openTabs h) jjuiTerminal ++ onHide cfg)
    else
      match focusWindow jjuiTerminal with
      | Except.ok effs => (jjuiTerminal, effs ++ (onShown cfg).map UIEffect.cmd)
      | Except.error _ => (jjuiTerminal, [])
  | none =>
    match createWindow cfg isWin cwd fresh with
    | Except.ok r => (some r.1, r.2 ++ (onShown cfg).map UIEffect.cmd)
    | Except.error _ => (none, [])

/- --- Utils: expandPath --- -/

/-- The lookup used by every replacement callback in expandPath:
process.env[n] with a falsy (undefined or empty) value replaced by the
empty string. -/
def envStr (env : String → Option String) (n : String) : String :=
  (env n).getD ""

/-- Scanner for the regex fragment ([^%]+)% applied after an opening
percent sign: returns the (possibly empty) run of non-percent characters
and the characters after the closing percent sign, or none when no
closing percent sign exists. -/
def scanName : List Char → Option (List Char × List Char)
  | [] => none
  | c :: rest =>
    if c = '%' then some ([], rest)
    else
      match scanName rest with
      | some r => some (c :: r.1, r.2)
      | none => none

theorem scanName_tail_lt (l : List Char) (nm tl : List Char)
    (h : scanName l = some (nm, tl)) : tl.length < l.length := by
  induction l generalizing nm tl with
  | nil => simp [scanName] at h
  | cons c rest ih =>
    by_cases hc : c = '%'
    · simp [scanName, hc] at h
      simp [← h.2]
    · simp only [scanName, if_neg hc] at h
      cases hr : scanName rest with
      | none => rw [hr] at h; simp at h
      | some r =>
        rw [hr] at h
        simp only [Option.some.injEq, Prod.mk.injEq] at h
        obtain ⟨h1, h2⟩ := h
        subst h2
        have := ih r.1 r.2 hr
        simp only [List.length_cons]
        omega

theorem scanName_head_percent (rest : List Char) (tl : List Char)
    (h : scanName rest = some ([], tl)) :
    rest = '%' :: tl := by
  cases rest with
  | nil => simp [scanName] at h
  | cons c r =>
    by_cases hc : c = '%'
    · simp [scanName, hc] at h
      simp [hc, h]
    · simp only [scanName, if_neg hc] at h
      cases hr : scanName r with
      | none => rw [hr] at h; simp at h
      | some p => rw [hr] at h; simp at h

/-- The global replacement pth.replace(/%([^%]+)%/g, (_, n) =>
process.env[n] || "") from expandPath, on the character list of the
string.  At each opening percent sign with a nonempty run of non-percent
characters followed by a closing percent sign, the whole %name% token is
replaced by the environment value (empty when unset) and scanning resumes
after the token; a percent sign with no such match is kept and scanning
advances by one character; the replacement value is not rescanned. -/
def expandPercent (env : String → Option String) : List Char → List Char
  | [] => []
  | c :: rest =>
    if c = '%' then
      match hs : scanName rest with
      | some r =>
        if r.1.isEmpty then
          '%' :: expandPercent env rest
        else
          (envStr env (String.mk r.1)).data ++ expandPercent env r.2
      | none => c :: rest
    else
      c :: expandPercent env rest
termination_by l => l.length
decreasing_by
  all_goals simp only [List.length_cons]
  · omega
  · have := scanName_tail_lt rest r.1 r.2 hs
    omega
  · omega

/-- Every dropWhile result is at most as long as its input. -/
theorem lengthDropWhileLe {α : Type} (p : α → Bool) :
    ∀ l : List α, (l.dropWhile p).length ≤ l.length := by
  intro l
  induction l with
  | nil => simp [List.dropWhile]
  | cons a t ih =>
    simp only [List.dropWhile]
    cases p a
    · simp
    · simp only [List.length_cons]
      omega

/-- The character class [A-Za-z0-9_] of the dollar-variable regex. -/
def isVarChar (c : Char) : Bool :=
  c.isAlphanum || c = '_'

/-- The global replacement .replace(/\x24([A-Za-z0-9_]+)/g, (_, n) =>
process.env[n] || "") from expandPath, on the character list of the
string: each dollar sign followed by a nonempty maximal run of
[A-Za-z0-9_] characters is replaced together with that run by the
environment value of the run (empty when unset); a dollar sign not
followed by such a character is kept; the replacement value is not
rescanned. -/
def expandDollar (env : String → Option String) : List Char → List Char
  | [] => []
  | c :: rest =>
    if c = '$' then
      if (rest.takeWhile isVarChar).isEmpty then
        '$' :: expandDollar env rest
      else
        (envStr env (String.mk (rest.takeWhile isVarChar))).data
          ++ expandDollar env (rest.dropWhile isVarChar)
    else
      c :: expandDollar env rest
termination_by l => l.length
decreasing_by
  all_goals simp only [List.length_cons]
  · omega
  · have := lengthDropWhileLe isVarChar rest
    omega
  · omega

/-- The leading-tilde replacement pth.replace(tilde-regex, os.homedir())
from expandPath: a tilde at the start of the string, followed by nothing,
a slash or a backslash, is replaced by the home directory. -/
def expandTilde (home : String) (pth : String) : String :=
  match pth.data with
  | '~' :: rest =>
    match rest with
    | [] => home
    | c :: _ =>
      if c = '/' || c = '\\' then home ++ String.mk rest else pth
  | _ => pth

/-- expandPath from the source: tilde expansion first, then the global
%name% replacement, then the global dollar-variable replacement on its
result.  home models os.homedir() and env models process.env. -/
def expandPath (home : String) (env : String → Option String)
    (pth : String) : String :=
  String.mk (expandDollar env (expandPercent env (expandTilde home pth).data))

/- --- Utils: getWorkspaceFolder --- -/

/-- The host workspace state read by getWorkspaceFolder: the uri of the
active text document, the uri of the active notebook, the host mapping
from a uri to its containing workspace folder
(vscode.workspace.getWorkspaceFolder, none when the uri is in no open
folder), the open workspace folders (none when no workspace is open), the
file-system test fs.existsSync(path.join(folder, ".jj")), and
os.homedir().  Folders and uris are modelled by their fsPath strings. -/
structure WorkspaceEnv where
  activeDocUri : Option String
  activeNotebookUri : Option String
  folderOfUri : String → Option String
  workspaceFolders : Option (List String)
  hasJJDir : String → Bool
  homedir : String

/-- getWorkspaceFolder from src/unnamed/part_000 (the variant with the
notebook fallback and the .jj marker search; the claims describe this
variant).  Returns some path on every path the source returns on; the
none result corresponds to the only non-returning path, indexing
folders[0] of an empty folder array. -/
def getWorkspaceFolder (e : WorkspaceEnv) : Option String :=
  let activeEditorUri :=
    match e.activeDocUri with
    | some u => some u
    | none => e.activeNotebookUri
  let fromEditor :=
    match activeEditorUri with
    | some uri => e.folderOfUri uri
    | none => none
  match fromEditor with
  | some f => some f
  | none =>
    match e.workspaceFolders with
    | some folders =>
      match folders.find? e.hasJJDir with
      | some f => some f
      | none => folders.head?
    | none => some e.homedir

/- --- Config loading --- -/

/-- The JSON serialization of a panel behavior, as JSON.stringify renders
the corresponding string literal. -/
def behaviorJSON : PanelBehavior → String
  | PanelBehavior.keep => "\"keep\""
  | PanelBehavior.hide => "\"hide\""
  | PanelBehavior.hideRestore => "\"hideRestore\""

/-- JSON.stringify of a JJUIConfig value, with the fixed field order of
the source record. -/
def configJSON (c : JJUIConfig) : String :=
  "\x7b\"jjuiPath\":" ++ c.jjuiPath.quote
    ++ ",\"autoMaximizeWindow\":"
    ++ (if c.autoMaximizeWindow then "true" else "false")
    ++ ",\"panels\":\x7b\"sidebar\":" ++ behaviorJSON c.panels.sidebar
    ++ ",\"panel\":" ++ behaviorJSON c.panels.panel
    ++ ",\"secondarySidebar\":" ++ behaviorJSON c.panels.secondarySidebar
    ++ "\x7d\x7d"

/-- The result of loadExtension: the final global configuration together
with whether the user-visible error message was shown. -/
structure LoadResult where
  config : JJUIConfig
  errorShown : Bool
deriving Repr

/-- loadExtension from the source, for a fixed settings snapshot:
settingsCfg is the value loadConfig reads from host settings, home and
env feed expandPath, and pathLookup is the result of
findExecutableOnPath("jjui") (none when the PATH lookup rejects).  A
truthy (nonempty) configured jjuiPath is expanded; otherwise the PATH
lookup result is installed, and on lookup failure the error message is
shown and jjuiPath keeps its empty value. -/
def loadExtension (settingsCfg : JJUIConfig) (home : String)
    (env : String → Option String) (pathLookup : Option String) :
    LoadResult :=
  if settingsCfg.jjuiPath ≠ "" then
    { config := { settingsCfg with
        jjuiPath := expandPath home env settingsCfg.jjuiPath },
      errorShown := false }
  else
    match pathLookup with
    | some p => { config := { settingsCfg with jjuiPath := p }, errorShown := false }
    | none => { config := settingsCfg, errorShown := true }

/-- reloadIfConfigChange from the source: reload exactly when the JSON
serialization of the live settings differs from the cached serialized
form (which was taken from the settings snapshot before path
resolution). -/
def reloadIfConfigChange (cachedJSON : String) (live : JJUIConfig) : Bool :=
  configJSON live != cachedJSON

/- --- Terminal-close observers --- -/

/-- One observer registered by createWindow via
vscode.window.onDidCloseTerminal, fired with the closed terminal handle:
when the closed terminal equals the current global handle, the handle is
cleared and onHide runs (its effects are returned); otherwise nothing
happens.  Every registered observer is this same closure over the global
handle. -/
def closeObserver (cfg : JJUIConfig) (closed : Nat)
    (jjuiTerminal : Option Nat) : Option Nat × List UIEffect :=
  if some closed == jjuiTerminal then
    (none, onHide cfg)
  else
    (jjuiTerminal, [])

/-- Firing n registered observers in registration order on one
terminal-closed notification, threading the global handle; returns the
final handle and the concatenated effects. -/
def fireObservers (cfg : JJUIConfig) (n : Nat) (closed : Nat)
    (jjuiTerminal : Option Nat) : Option Nat × List UIEffect :=
  match n with
  | 0 => (jjuiTerminal, [])
  | Nat.succ m =>
    let r := closeObserver cfg closed jjuiTerminal
    let r2 := fireObservers cfg m closed r.1
    (r2.1, r.2 ++ r2.2)

/- --- Theorems --- -/

/-- Firing any number of observers when the closed terminal does not
equal the current handle changes nothing and runs no adjustment. -/
theorem fireObservers_miss (cfg : JJUIConfig) (closed : Nat) :
    ∀ (n : Nat) (j : Option Nat), j ≠ some closed →
      fireObservers cfg n closed j = (j, []) := by
  intro n
  induction n with
  | zero => intro j hj; rfl
  | succ m ih =>
    intro j hj
    have hobs : closeObserver cfg closed j = (j, []) := by
      unfold closeObserver
      rw [if_neg]
      intro hb
      exact hj (eq_of_beq hb).symm
    simp only [fireObservers, hobs]
    rw [ih j hj]
    simp

/-- Claim C5: the on-shown adjustment as a function of the configuration
snapshot: with auto-maximize enabled it issues the maximize-editor
command, followed by the sidebar-toggle command exactly when the sidebar
behavior is keep; with auto-maximize disabled it issues close-sidebar
exactly when the sidebar behavior is hide or hideRestore and
close-secondary-sidebar exactly when the secondary-sidebar behavior is
hide or hideRestore; independently, it issues close-panel exactly when
the panel behavior is hide or hideRestore. -/
theorem onShown_spec (cfg : JJUIConfig) :
    ("workbench.action.maximizeEditorHideSidebar" ∈ onShown cfg
        ↔ cfg.autoMaximizeWindow = true)
    ∧ ("workbench.action.toggleSidebarVisibility" ∈ onShown cfg
        ↔ cfg.autoMaximizeWindow = true
            ∧ cfg.panels.sidebar = PanelBehavior.keep)
    ∧ (cfg.autoMaximizeWindow = true → cfg.panels.sidebar = PanelBehavior.keep →
        (onShown cfg).take 2 =
          ["workbench.action.maximizeEditorHideSidebar",
           "workbench.action.toggleSidebarVisibility"])
    ∧ ("workbench.action.closeSidebar" ∈ onShown cfg
        ↔ cfg.autoMaximizeWindow = false
            ∧ (cfg.panels.sidebar = PanelBehavior.hide
                ∨ cfg.panels.sidebar = PanelBehavior.hideRestore))
    ∧ ("workbench.action.closeAuxiliaryBar" ∈ onShown cfg
        ↔ cfg.autoMaximizeWindow = false
            ∧ (cfg.panels.secondarySidebar = PanelBehavior.hide
                ∨ cfg.panels.secondarySidebar = PanelBehavior.hideRestore))
    ∧ ("workbench.action.closePanel" ∈ onShown cfg
        ↔ (cfg.panels.panel = PanelBehavior.hide
            ∨ cfg.panels.panel = PanelBehavior.hideRestore)) := by
  obtain ⟨p, am, ⟨sb, pn, ss⟩⟩ := cfg
  cases am <;> cases sb <;> cases pn <;> cases ss <;>
    simp [onShown, shouldKeep, shouldHide]

/-- Claim C5 witness: the on-shown characterization evaluated at one
concrete configuration. -/
theorem onShown_spec_witness :
    ("workbench.action.closeSidebar"
        ∈ onShown ⟨"jjui", false,
            ⟨PanelBehavior.hideRestore, PanelBehavior.hide, PanelBehavior.keep⟩⟩
      ↔ (false = false
          ∧ (PanelBehavior.hideRestore = PanelBehavior.hide
              ∨ PanelBehavior.hideRestore = PanelBehavior.hideRestore)))
    ∧ (onShown ⟨"jjui", true,
          ⟨PanelBehavior.keep, PanelBehavior.keep, PanelBehavior.keep⟩⟩).take 2 =
        ["workbench.action.maximizeEditorHideSidebar",
         "workbench.action.toggleSidebarVisibility"] :=
  ⟨(onShown_spec ⟨"jjui", false,
      ⟨PanelBehavior.hideRestore, PanelBehavior.hide, PanelBehavior.keep⟩⟩).2.2.2.1,
   (onShown_spec ⟨"jjui", true,
      ⟨PanelBehavior.keep, PanelBehavior.keep, PanelBehavior.keep⟩⟩).2.2.1 rfl rfl⟩

/-- Claim C6: the on-hidden adjustment issues the secondary-sidebar
toggle exactly when that behavior is hideRestore, the panel toggle
exactly when that behavior is hideRestore, never issues the sidebar
toggle (the line is commented out in the source), issues even editor
widths exactly when auto-maximize is enabled, and ends with the
focus-active-editor-group command scheduled at a 200 ms delay. -/
theorem onHide_spec (cfg : JJUIConfig) :
    (UIEffect.cmd "workbench.action.toggleAuxiliaryBar" ∈ onHide cfg
        ↔ cfg.panels.secondarySidebar = PanelBehavior.hideRestore)
    ∧ (UIEffect.cmd "workbench.action.togglePanel" ∈ onHide cfg
        ↔ cfg.panels.panel = PanelBehavior.hideRestore)
    ∧ UIEffect.cmd "workbench.action.toggleSidebarVisibility" ∉ onHide cfg
    ∧ (UIEffect.cmd "workbench.action.evenEditorWidths" ∈ onHide cfg
        ↔ cfg.autoMaximizeWindow = true)
    ∧ (onHide cfg).getLast? =
        some (UIEffect.delayedCmd 200 "workbench.action.focusActiveEditorGroup") := by
  obtain ⟨p, am, ⟨sb, pn, ss⟩⟩ := cfg
  cases am <;> cases sb <;> cases pn <;> cases ss <;>
    simp [onHide, shouldRestore]

/-- Claim C6 witness: the on-hidden characterization evaluated at one
concrete configuration. -/
theorem onHide_spec_witness :
    (UIEffect.cmd "workbench.action.togglePanel"
        ∈ onHide ⟨"jjui", true,
            ⟨PanelBehavior.keep, PanelBehavior.hideRestore, PanelBehavior.hide⟩⟩
      ↔ PanelBehavior.hideRestore = PanelBehavior.hideRestore)
    ∧ (onHide ⟨"jjui", true,
          ⟨PanelBehavior.keep, PanelBehavior.hideRestore, PanelBehavior.hide⟩⟩).getLast? =
        some (UIEffect.delayedCmd 200 "workbench.action.focusActiveEditorGroup") :=
  ⟨(onHide_spec ⟨"jjui", true,
      ⟨PanelBehavior.keep, PanelBehavior.hideRestore, PanelBehavior.hide⟩⟩).2.1,
   (onHide_spec ⟨"jjui", true,
      ⟨PanelBehavior.keep, PanelBehavior.hideRestore, PanelBehavior.hide⟩⟩).2.2.2.2⟩

/-- Claim C9: bring-to-foreground with no live session fails with the
assertion error (a thrown programmer error, not swallowed); with a
session present the failure branch is unreachable and the stored
terminal is shown. -/
theorem focusWindow_spec (t : Nat) :
    focusWindow none = Except.error "Terminal undefined!"
    ∧ focusWindow (some t) = Except.ok [UIEffect.showTerminal] :=
  ⟨rfl, rfl⟩

/-- Claim C4: when hiding with exactly one open tab the terminal is
disposed; with any other tab count the host is asked to reopen the
previously used editor in the group, and the toggle hide path leaves the
session handle unchanged. -/
theorem closeWindow_spec (cfg : JJUIConfig) (h : HostView) (isWin : Bool)
    (cwd : String) (t fresh : Nat) :
    (openTabs h = 1 →
      closeWindowEffects (openTabs h) (some t) = [UIEffect.disposeTerminal])
    ∧ (openTabs h ≠ 1 →
        closeWindowEffects (openTabs h) (some t) =
          [UIEffect.cmd "workbench.action.openPreviousRecentlyUsedEditorInGroup"])
    ∧ (h.activeTextEditor = none → h.activeTerminal = some t →
        (toggleJJUI cfg h isWin cwd (some t) fresh).1 = some t) := by
  refine ⟨?_, ?_, ?_⟩
  · intro h1
    unfold closeWindowEffects
    rw [if_pos]
    simp [h1]
  · intro h1
    unfold closeWindowEffects
    rw [if_neg]
    simp [h1]
  · intro he ht
    unfold toggleJJUI
    have hf : windowFocused h (some t) = true := by
      simp [windowFocused, he, ht]
    simp [hf]

/-- Claim C4 witness: the hide characterization at a concrete host view
with one open tab and at one with two open tabs. -/
theorem closeWindow_spec_witness :
    closeWindowEffects (openTabs ⟨none, some 7, [[()]]⟩) (some 7) =
        [UIEffect.disposeTerminal]
    ∧ closeWindowEffects (openTabs ⟨none, some 7, [[(), ()]]⟩) (some 7) =
        [UIEffect.cmd "workbench.action.openPreviousRecentlyUsedEditorInGroup"]
    ∧ (toggleJJUI ⟨"jjui", false,
          ⟨PanelBehavior.keep, PanelBehavior.keep, PanelBehavior.hide⟩⟩
        ⟨none, some 7, [[(), ()]]⟩ false "/w" (some 7) 9).1 = some 7 :=
  ⟨(closeWindow_spec ⟨"jjui", false,
      ⟨PanelBehavior.keep, PanelBehavior.keep, PanelBehavior.hide⟩⟩
      ⟨none, some 7, [[()]]⟩ false "/w" 7 9).1 (by decide),
   (closeWindow_spec ⟨"jjui", false,
      ⟨PanelBehavior.keep, PanelBehavior.keep, PanelBehavior.hide⟩⟩
      ⟨none, some 7, [[(), ()]]⟩ false "/w" 7 9).2.1 (by decide),
   (closeWindow_spec ⟨"jjui", false,
      ⟨PanelBehavior.keep, PanelBehavior.keep, PanelBehavior.hide⟩⟩
      ⟨none, some 7, [[(), ()]]⟩ false "/w" 7 9).2.2 rfl rfl⟩

/-- Claim C7: one terminal-closed notification: the observer clears the
handle and runs on-hidden exactly when the closed terminal equals the
stored handle; with any number of registered observers the adjustment
still runs exactly once on a match, and a non-matching closure leaves
the handle unchanged and runs nothing. -/
theorem closeObserver_spec (cfg : JJUIConfig) (n : Nat) (t closed : Nat)
    (j : Option Nat) :
    closeObserver cfg t (some t) = (none, onHide cfg)
    ∧ (j ≠ some closed → closeObserver cfg closed j = (j, []))
    ∧ (1 ≤ n → fireObservers cfg n t (some t) = (none, onHide cfg))
    ∧ (j ≠ some closed → fireObservers cfg n closed j = (j, [])) := by
  refine ⟨?_, ?_, ?_, ?_⟩
  · unfold closeObserver
    rw [if_pos]
    exact beq_self_eq_true _
  · intro hj
    unfold closeObserver
    rw [if_neg]
    intro hb
    exact hj (eq_of_beq hb).symm
  · intro hn
    obtain ⟨m, rfl⟩ : ∃ m, n = m + 1 := ⟨n - 1, by omega⟩
    have h1 : closeObserver cfg t (some t) = (none, onHide cfg) := by
      unfold closeObserver
      rw [if_pos]
      exact beq_self_eq_true _
    simp only [fireObservers, h1]
    rw [fireObservers_miss cfg t m none (by simp)]
    simp
  · exact fireObservers_miss cfg closed n j

/-- Claim C7 witness: three registered observers, a matching closure and
a non-matching closure, at a concrete configuration. -/
theorem closeObserver_spec_witness :
    fireObservers ⟨"jjui", false,
        ⟨PanelBehavior.keep, PanelBehavior.keep, PanelBehavior.hide⟩⟩ 3 7 (some 7) =
      (none, onHide ⟨"jjui", false,
        ⟨PanelBehavior.keep, PanelBehavior.keep, PanelBehavior.hide⟩⟩)
    ∧ fireObservers ⟨"jjui", false,
        ⟨PanelBehavior.keep, PanelBehavior.keep, PanelBehavior.hide⟩⟩ 3 8 (some 7) =
      (some 7, []) :=
  ⟨(closeObserver_spec ⟨"jjui", false,
      ⟨PanelBehavior.keep, PanelBehavior.keep, PanelBehavior.hide⟩⟩ 3 7 8 (some 7)).2.2.1
      (by decide),
   (closeObserver_spec ⟨"jjui", false,
      ⟨PanelBehavior.keep, PanelBehavior.keep, PanelBehavior.hide⟩⟩ 3 7 8 (some 7)).2.2.2
      (by decide)⟩

/-- scanName on a percent-free name followed by a closing percent sign
finds exactly that name. -/
theorem scanName_append (name rest : List Char) (h : '%' ∉ name) :
    scanName (name ++ '%' :: rest) = some (name, rest) := by
  induction name with
  | nil => simp [scanName]
  | cons a nm ih =>
    have ha : a ≠ '%' := by
      intro hq
      exact h (hq ▸ List.mem_cons_self a nm)
    have hnm : '%' ∉ nm := fun hq => h (List.mem_cons_of_mem a hq)
    simp only [List.cons_append, scanName, if_neg ha]
    rw [show nm.append ('%' :: rest) = nm ++ '%' :: rest from rfl]
    rw [ih hnm]

theorem expandPercent_cons_ne (env : String → Option String) (c : Char)
    (l : List Char) (hc : c ≠ '%') :
    expandPercent env (c :: l) = c :: expandPercent env l := by
  rw [expandPercent]
  simp [hc]

theorem expandPercent_token (env : String → Option String)
    (name rest : List Char) (hne : name ≠ []) (h : '%' ∉ name) :
    expandPercent env ('%' :: (name ++ '%' :: rest)) =
      (envStr env (String.mk name)).data ++ expandPercent env rest := by
  rw [expandPercent]
  simp only [if_pos rfl]
  rw [scanName_append name rest h]
  simp [List.isEmpty_iff, hne]

theorem expandPercent_append (env : String → Option String)
    (pre l : List Char) (h : '%' ∉ pre) :
    expandPercent env (pre ++ l) = pre ++ expandPercent env l := by
  induction pre with
  | nil => simp
  | cons a pr ih =>
    have ha : a ≠ '%' := by
      intro hq
      exact h (hq ▸ List.mem_cons_self a pr)
    have hpr : '%' ∉ pr := fun hq => h (List.mem_cons_of_mem a hq)
    rw [List.cons_append, expandPercent_cons_ne env a (pr ++ l) ha, ih hpr,
      List.cons_append]

theorem expandPercent_nil (env : String → Option String) :
    expandPercent env [] = [] := by
  rw [expandPercent]

theorem expandPercent_id (env : String → Option String)
    (l : List Char) (h : '%' ∉ l) :
    expandPercent env l = l := by
  have := expandPercent_append env l [] h
  simpa [expandPercent_nil] using this

theorem dropWhile_eq_self_of_takeWhile_nil {p : Char → Bool}
    {l : List Char} (h : l.takeWhile p = []) : l.dropWhile p = l := by
  cases l with
  | nil => rfl
  | cons c r =>
    cases hc : p c
    · simp [List.dropWhile, hc]
    · simp [List.takeWhile, hc] at h

theorem takeWhile_append_all (p : Char → Bool) (name rest : List Char)
    (h1 : ∀ c ∈ name, p c = true) (h2 : rest.takeWhile p = []) :
    (name ++ rest).takeWhile p = name ∧ (name ++ rest).dropWhile p = rest := by
  induction name with
  | nil =>
    refine ⟨?_, ?_⟩ <;> rw [List.nil_append]
    · exact h2
    · exact dropWhile_eq_self_of_takeWhile_nil h2
  | cons a nm ih =>
    have ha : p a = true := h1 a (List.mem_cons_self a nm)
    have hnm : ∀ c ∈ nm, p c = true := fun c hc => h1 c (List.mem_cons_of_mem a hc)
    obtain ⟨iht, ihd⟩ := ih hnm
    constructor
    · rw [List.cons_append]
      simp [List.takeWhile, ha, iht]
    · rw [List.cons_append]
      simp [List.dropWhile, ha, ihd]

theorem expandDollar_cons_ne (env : String → Option String) (c : Char)
    (l : List Char) (hc : c ≠ '\x24') :
    expandDollar env (c :: l) = c :: expandDollar env l := by
  rw [expandDollar]
  simp [hc]

theorem expandDollar_var (env : String → Option String)
    (name rest : List Char) (hne : name ≠ [])
    (hall : ∀ c ∈ name, isVarChar c = true)
    (hrest : rest.takeWhile isVarChar = []) :
    expandDollar env ('\x24' :: (name ++ rest)) =
      (envStr env (String.mk name)).data ++ expandDollar env rest := by
  obtain ⟨tw, dw⟩ := takeWhile_append_all isVarChar name rest hall hrest
  rw [expandDollar]
  simp only [if_pos rfl]
  rw [tw, dw]
  simp [List.isEmpty_iff, hne]

theorem expandDollar_append (env : String → Option String)
    (pre l : List Char) (h : '\x24' ∉ pre) :
    expandDollar env (pre ++ l) = pre ++ expandDollar env l := by
  induction pre with
  | nil => simp
  | cons a pr ih =>
    have ha : a ≠ '\x24' := by
      intro hq
      exact h (hq ▸ List.mem_cons_self a pr)
    have hpr : '\x24' ∉ pr := fun hq => h (List.mem_cons_of_mem a hq)
    rw [List.cons_append, expandDollar_cons_ne env a (pr ++ l) ha, ih hpr,
      List.cons_append]

theorem expandDollar_nil (env : String → Option String) :
    expandDollar env [] = [] := by
  rw [expandDollar]

theorem expandDollar_id (env : String → Option String)
    (l : List Char) (h : '\x24' ∉ l) :
    expandDollar env l = l := by
  have := expandDollar_append env l [] h
  simpa [expandDollar_nil] using this


/-- Claim C8: expandPath with home directory /home/u maps ~/tools/jjui to
/home/u/tools/jjui; with FOO=/opt in the environment it maps the string
dollar-FOO/bin to /opt/bin; and in every input, a dollar-variable that is
unset in the environment is replaced by the empty string (the token
vanishes from the dollar-expansion of the string). -/
theorem expandPath_spec (env : String → Option String) (home : String)
    (name rest : List Char) :
    expandPath "/home/u" env "~/tools/jjui" = "/home/u/tools/jjui"
    ∧ (env "FOO" = some "/opt" → expandPath home env "$FOO/bin" = "/opt/bin")
    ∧ (name ≠ [] → (∀ c ∈ name, isVarChar c = true) →
        rest.takeWhile isVarChar = [] → env (String.mk name) = none →
        expandDollar env ('\x24' :: (name ++ rest)) = expandDollar env rest) := by
  refine ⟨?_, ?_, ?_⟩
  · unfold expandPath
    rw [show (expandTilde "/home/u" "~/tools/jjui") = "/home/u/tools/jjui" from rfl]
    rw [expandPercent_id env _ (by decide)]
    rw [expandDollar_id env _ (by decide)]
  · intro henv
    unfold expandPath
    rw [show expandTilde home "$FOO/bin" = "$FOO/bin" from rfl]
    rw [expandPercent_id env _ (by decide)]
    rw [show ("$FOO/bin").data = '\x24' :: (['F', 'O', 'O'] ++ ['/', 'b', 'i', 'n']) from rfl]
    rw [expandDollar_var env ['F', 'O', 'O'] ['/', 'b', 'i', 'n'] (by decide) (by decide) (by decide)]
    rw [expandDollar_id env ['/', 'b', 'i', 'n'] (by decide)]
    rw [show String.mk ['F', 'O', 'O'] = "FOO" from rfl]
    unfold envStr
    rw [henv]
    rfl
  · intro hne hall hrest hnone
    rw [expandDollar_var env name rest hne hall hrest]
    unfold envStr
    rw [hnone]
    simp

/-- Claim C8 witness: the three expansion facts evaluated at a concrete
environment with FOO=/opt and BAR unset. -/
theorem expandPath_spec_witness :
    expandPath "/home/u" (fun n => if n = "FOO" then some "/opt" else none)
        "~/tools/jjui" = "/home/u/tools/jjui"
    ∧ expandPath "/x" (fun n => if n = "FOO" then some "/opt" else none)
        "$FOO/bin" = "/opt/bin"
    ∧ expandDollar (fun n => if n = "FOO" then some "/opt" else none)
        ('\x24' :: (['B', 'A', 'R'] ++ ['/', 'b', 'i', 'n'])) =
      expandDollar (fun n => if n = "FOO" then some "/opt" else none)
        ['/', 'b', 'i', 'n'] :=
  ⟨(expandPath_spec (fun n => if n = "FOO" then some "/opt" else none)
      "/x" [] []).1,
   (expandPath_spec (fun n => if n = "FOO" then some "/opt" else none)
      "/x" [] []).2.1 (by decide),
   (expandPath_spec (fun n => if n = "FOO" then some "/opt" else none)
      "/x" ['B', 'A', 'R'] ['/', 'b', 'i', 'n']).2.2
      (by decide) (by decide) (by decide) (by decide)⟩

/-- Claim C10: every percent-name-percent token with a nonempty
percent-free name is replaced by the value of that environment variable
(empty string when unset); the replacement acts at every occurrence
(percent-free prefixes pass through unchanged); and expandPath applies
the percent-expansion before the dollar-expansion on the same string. -/
theorem expandPercent_spec (env : String → Option String) (home : String)
    (name pre rest : List Char) (pth : String) :
    (name ≠ [] → '%' ∉ name →
      expandPercent env ('%' :: (name ++ '%' :: rest)) =
        (envStr env (String.mk name)).data ++ expandPercent env rest)
    ∧ (name ≠ [] → '%' ∉ name → env (String.mk name) = none →
        expandPercent env ('%' :: (name ++ '%' :: rest)) = expandPercent env rest)
    ∧ ('%' ∉ pre → expandPercent env (pre ++ rest) = pre ++ expandPercent env rest)
    ∧ expandPath home env pth =
        String.mk (expandDollar env (expandPercent env (expandTilde home pth).data)) := by
  refine ⟨?_, ?_, ?_, rfl⟩
  · exact fun hne h => expandPercent_token env name rest hne h
  · intro hne h hnone
    rw [expandPercent_token env name rest hne h]
    unfold envStr
    rw [hnone]
    simp
  · exact expandPercent_append env pre rest

/-- Claim C10 witness: percent-token replacement, an unset variable, a
percent-free prefix and the expansion order, evaluated at a concrete
environment in which the value of A itself contains a dollar token that
the later dollar-expansion rewrites. -/
theorem expandPercent_spec_witness :
    expandPercent (fun n => if n = "A" then some "$B" else if n = "B" then some "x" else none)
        ('%' :: (['A'] ++ '%' :: [])) =
      (envStr (fun n => if n = "A" then some "$B" else if n = "B" then some "x" else none)
        (String.mk ['A'])).data
        ++ expandPercent (fun n => if n = "A" then some "$B" else if n = "B" then some "x" else none) []
    ∧ expandPercent (fun n => if n = "A" then some "$B" else if n = "B" then some "x" else none)
        ('%' :: (['U'] ++ '%' :: ['b'])) =
      expandPercent (fun n => if n = "A" then some "$B" else if n = "B" then some "x" else none) ['b']
    ∧ expandPercent (fun n => if n = "A" then some "$B" else if n = "B" then some "x" else none)
        (['a', 'b'] ++ ['%']) =
      ['a', 'b'] ++ expandPercent (fun n => if n = "A" then some "$B" else if n = "B" then some "x" else none) ['%']
    ∧ expandPath "/h" (fun n => if n = "A" then some "$B" else if n = "B" then some "x" else none) "%A%" =
      String.mk (expandDollar (fun n => if n = "A" then some "$B" else if n = "B" then some "x" else none)
        (expandPercent (fun n => if n = "A" then some "$B" else if n = "B" then some "x" else none)
          (expandTilde "/h" "%A%").data)) :=
  ⟨(expandPercent_spec (fun n => if n = "A" then some "$B" else if n = "B" then some "x" else none)
      "/h" ['A'] [] [] "%A%").1 (by decide) (by decide),
   (expandPercent_spec (fun n => if n = "A" then some "$B" else if n = "B" then some "x" else none)
      "/h" ['U'] [] ['b'] "%A%").2.1 (by decide) (by decide) (by decide),
   (expandPercent_spec (fun n => if n = "A" then some "$B" else if n = "B" then some "x" else none)
      "/h" ['A'] ['a', 'b'] ['%'] "%A%").2.2.1 (by decide),
   (expandPercent_spec (fun n => if n = "A" then some "$B" else if n = "B" then some "x" else none)
      "/h" ['A'] [] [] "%A%").2.2.2⟩

/-- Claim C1 counterexample: a toggle invocation with no session handle
and an empty resolved executable path (the configured path empty and the
PATH lookup failed) creates no session and applies no on-shown
adjustment: the assert in createWindow aborts the invocation.  The claim
as stated, which promises a new session on every sessionless invocation,
is therefore false at this input. -/
theorem toggle_create_skip_cex :
    (toggleJJUI ⟨"", false, ⟨PanelBehavior.keep, PanelBehavior.keep, PanelBehavior.hide⟩⟩
        ⟨none, none, [[()]]⟩ false "/w" none 7).1.isSome = false
    ∧ (toggleJJUI ⟨"", false, ⟨PanelBehavior.keep, PanelBehavior.keep, PanelBehavior.hide⟩⟩
        ⟨none, none, [[()]]⟩ false "/w" none 7).2 = [] := by
  decide

/-- Claim C1 (amended): for every toggle invocation: with no session
handle and a non-empty resolved executable path, a new session is
created and on-shown adjustments are applied; with a session that is
focused (no active text editor and the active terminal equal to the
stored handle) the window is hidden and on-hidden adjustments are
applied; with a session that is not focused the session is shown and
on-shown adjustments are applied, the handle unchanged. -/
theorem toggle_dispatch (cfg : JJUIConfig) (h : HostView) (isWin : Bool)
    (cwd : String) (t fresh : Nat) :
    (cfg.jjuiPath ≠ "" →
      toggleJJUI cfg h isWin cwd none fresh =
        (some fresh,
         [UIEffect.createTerminal cwd,
          UIEffect.sendText (cfg.jjuiPath ++ exitSuffix isWin),
          UIEffect.showTerminal,
          UIEffect.delayedRefocus 100,
          UIEffect.registerCloseObserver] ++ (onShown cfg).map UIEffect.cmd))
    ∧ (h.activeTextEditor = none → h.activeTerminal = some t →
        toggleJJUI cfg h isWin cwd (some t) fresh =
          (some t, closeWindowEffects (openTabs h) (some t) ++ onHide cfg))
    ∧ ((h.activeTextEditor ≠ none ∨ h.activeTerminal ≠ some t) →
        toggleJJUI cfg h isWin cwd (some t) fresh =
          (some t, UIEffect.showTerminal :: (onShown cfg).map UIEffect.cmd)) := by
  refine ⟨?_, ?_, ?_⟩
  · intro hne
    simp [toggleJJUI, createWindow, hne]
  · intro he ht
    have hf : windowFocused h (some t) = true := by
      simp [windowFocused, he, ht]
    simp [toggleJJUI, hf]
  · intro hne
    have hf : windowFocused h (some t) = false := by
      unfold windowFocused
      rcases hne with h1 | h1
      · have hx : h.activeTextEditor.isNone = false := by
          cases hy : h.activeTextEditor
          · exact absurd hy h1
          · simp
        simp [hx]
      · have hx : (h.activeTerminal == some t) = false := by
          cases hb : h.activeTerminal == some t
          · rfl
          · exact absurd (eq_of_beq hb) h1
        simp [hx]
    simp [toggleJJUI, hf, focusWindow]

/-- Claim C1 witness: all three dispatch branches evaluated at concrete
inputs. -/
theorem toggle_dispatch_witness :
    toggleJJUI ⟨"/bin/jjui", false,
        ⟨PanelBehavior.keep, PanelBehavior.keep, PanelBehavior.hide⟩⟩
      ⟨none, none, [[()]]⟩ false "/w" none 7 =
      (some 7,
       [UIEffect.createTerminal "/w",
        UIEffect.sendText ("/bin/jjui" ++ exitSuffix false),
        UIEffect.showTerminal,
        UIEffect.delayedRefocus 100,
        UIEffect.registerCloseObserver]
        ++ (onShown ⟨"/bin/jjui", false,
              ⟨PanelBehavior.keep, PanelBehavior.keep, PanelBehavior.hide⟩⟩).map
            UIEffect.cmd)
    ∧ toggleJJUI ⟨"/bin/jjui", false,
        ⟨PanelBehavior.keep, PanelBehavior.keep, PanelBehavior.hide⟩⟩
      ⟨none, some 7, [[(), ()]]⟩ false "/w" (some 7) 9 =
      (some 7,
       closeWindowEffects (openTabs ⟨none, some 7, [[(), ()]]⟩) (some 7)
         ++ onHide ⟨"/bin/jjui", false,
              ⟨PanelBehavior.keep, PanelBehavior.keep, PanelBehavior.hide⟩⟩)
    ∧ toggleJJUI ⟨"/bin/jjui", false,
        ⟨PanelBehavior.keep, PanelBehavior.keep, PanelBehavior.hide⟩⟩
      ⟨some (), some 7, [[(), ()]]⟩ false "/w" (some 7) 9 =
      (some 7,
       UIEffect.showTerminal
         :: (onShown ⟨"/bin/jjui", false,
              ⟨PanelBehavior.keep, PanelBehavior.keep, PanelBehavior.hide⟩⟩).map
            UIEffect.cmd) :=
  ⟨(toggle_dispatch ⟨"/bin/jjui", false,
      ⟨PanelBehavior.keep, PanelBehavior.keep, PanelBehavior.hide⟩⟩
      ⟨none, none, [[()]]⟩ false "/w" 7 7).1 (by decide),
   (toggle_dispatch ⟨"/bin/jjui", false,
      ⟨PanelBehavior.keep, PanelBehavior.keep, PanelBehavior.hide⟩⟩
      ⟨none, some 7, [[(), ()]]⟩ false "/w" 7 9).2.1 rfl rfl,
   (toggle_dispatch ⟨"/bin/jjui", false,
      ⟨PanelBehavior.keep, PanelBehavior.keep, PanelBehavior.hide⟩⟩
      ⟨some (), some 7, [[(), ()]]⟩ false "/w" 7 9).2.2
      (Or.inl (by decide))⟩

/-- Claim C2: with an empty configured executable path and a failed PATH
lookup, loadExtension shows the user-visible error message and leaves
the path empty; with unchanged settings no reload (hence no retried
lookup) happens; createWindow fails on its assert instead of creating a
terminal; and the whole toggle invocation leaves the session handle
absent and issues no effect. -/
theorem executableNotFound_spec (settings : JJUIConfig) (home : String)
    (env : String → Option String) (h : HostView) (isWin : Bool)
    (cwd : String) (fresh : Nat) (hempty : settings.jjuiPath = "") :
    (loadExtension settings home env none).errorShown = true
    ∧ (loadExtension settings home env none).config = settings
    ∧ reloadIfConfigChange (configJSON settings) settings = false
    ∧ createWindow (loadExtension settings home env none).config isWin cwd fresh =
        Except.error "jjui path is undefined!"
    ∧ toggleJJUI (loadExtension settings home env none).config h isWin cwd none fresh =
        (none, []) := by
  have hcfg : (loadExtension settings home env none).config = settings := by
    simp [loadExtension, hempty]
  refine ⟨?_, hcfg, ?_, ?_, ?_⟩
  · simp [loadExtension, hempty]
  · simp [reloadIfConfigChange]
  · rw [hcfg]
    simp [createWindow, hempty]
  · rw [hcfg]
    simp [toggleJJUI, createWindow, hempty]

/-- Claim C2 witness: the lookup-failure behavior at one concrete
settings snapshot and host view. -/
theorem executableNotFound_spec_witness :
    (loadExtension ⟨"", false,
        ⟨PanelBehavior.keep, PanelBehavior.keep, PanelBehavior.hide⟩⟩
      "/home/u" (fun _ => none) none).errorShown = true
    ∧ toggleJJUI (loadExtension ⟨"", false,
          ⟨PanelBehavior.keep, PanelBehavior.keep, PanelBehavior.hide⟩⟩
        "/home/u" (fun _ => none) none).config
        ⟨none, none, [[()]]⟩ false "/w" none 7 = (none, []) :=
  ⟨(executableNotFound_spec ⟨"", false,
      ⟨PanelBehavior.keep, PanelBehavior.keep, PanelBehavior.hide⟩⟩
      "/home/u" (fun _ => none) ⟨none, none, [[()]]⟩ false "/w" 7 rfl).1,
   (executableNotFound_spec ⟨"", false,
      ⟨PanelBehavior.keep, PanelBehavior.keep, PanelBehavior.hide⟩⟩
      "/home/u" (fun _ => none) ⟨none, none, [[()]]⟩ false "/w" 7 rfl).2.2.2.2⟩

/-- Claim C3: working-directory resolution: (a) with an active document
or notebook uri whose containing workspace folder exists, that folder;
else (b) the first workspace folder containing the .jj marker directory;
else (c) the first open workspace folder; else (d) the home
directory. -/
theorem getWorkspaceFolder_spec (e : WorkspaceEnv) (uri w f f0 : String)
    (rest : List String) :
    ((e.activeDocUri = some uri
        ∨ (e.activeDocUri = none ∧ e.activeNotebookUri = some uri)) →
      e.folderOfUri uri = some w → getWorkspaceFolder e = some w)
    ∧ (e.activeDocUri = none → e.activeNotebookUri = none →
        e.workspaceFolders = some (f0 :: rest) →
        ((f0 :: rest).find? e.hasJJDir = some f → getWorkspaceFolder e = some f)
        ∧ ((f0 :: rest).find? e.hasJJDir = none → getWorkspaceFolder e = some f0))
    ∧ (e.activeDocUri = none → e.activeNotebookUri = none →
        e.workspaceFolders = none → getWorkspaceFolder e = some e.homedir) := by
  refine ⟨?_, ?_, ?_⟩
  · rintro (hd | ⟨hd, hn⟩) hf
    · simp [getWorkspaceFolder, hd, hf]
    · simp [getWorkspaceFolder, hd, hn, hf]
  · intro hd hn hw
    constructor
    · intro hfind
      simp [getWorkspaceFolder, hd, hn, hw, hfind]
    · intro hfind
      simp [getWorkspaceFolder, hd, hn, hw, hfind]
  · intro hd hn hw
    simp [getWorkspaceFolder, hd, hn, hw]

/-- Claim C3 witness: the four resolution scenarios at concrete
workspace states. -/
theorem getWorkspaceFolder_spec_witness :
    getWorkspaceFolder ⟨some "/A/f.txt", none,
        (fun u => if u = "/A/f.txt" then some "/A" else none),
        some ["/A", "/B"], (fun _ => false), "/home/u"⟩ = some "/A"
    ∧ getWorkspaceFolder ⟨none, none, (fun _ => none),
        some ["/A", "/B"], (fun g => g == "/B"), "/home/u"⟩ = some "/B"
    ∧ getWorkspaceFolder ⟨none, none, (fun _ => none),
        some ["/A", "/B"], (fun _ => false), "/home/u"⟩ = some "/A"
    ∧ getWorkspaceFolder ⟨none, none, (fun _ => none),
        none, (fun _ => false), "/home/u"⟩ = some "/home/u" :=
  ⟨(getWorkspaceFolder_spec ⟨some "/A/f.txt", none,
      (fun u => if u = "/A/f.txt" then some "/A" else none),
      some ["/A", "/B"], (fun _ => false), "/home/u"⟩
      "/A/f.txt" "/A" "/B" "/A" ["/B"]).1 (Or.inl rfl) (by simp),
   ((getWorkspaceFolder_spec ⟨none, none, (fun _ => none),
      some ["/A", "/B"], (fun g => g == "/B"), "/home/u"⟩
      "u" "w" "/B" "/A" ["/B"]).2.1 rfl rfl rfl).1 (by simp [List.find?]),
   ((getWorkspaceFolder_spec ⟨none, none, (fun _ => none),
      some ["/A", "/B"], (fun _ => false), "/home/u"⟩
      "u" "w" "/B" "/A" ["/B"]).2.1 rfl rfl rfl).2 (by simp [List.find?]),
   (getWorkspaceFolder_spec ⟨none, none, (fun _ => none),
      none, (fun _ => false), "/home/u"⟩
      "u" "w" "/B" "/A" ["/B"]).2.2 rfl rfl rfl⟩

end JJUI
